import Mathlib

/-!
Verification of the safe_vault node core against its specification.

Each Rust module under scrutiny is shallowly embedded as Lean definitions:
pure dispatch logic is translated directly; stateful handlers become
functions returning an updated state together with the produced action(s);
sub-components whose sources are outside the verified tree (chunk stores,
idata/mdata/adata handlers, message wrapping, the replica internals) are
represented by explicit invocation records or by spec-modelled functions,
each marked as such in its doc comment.
-/

namespace SafeVault

/-- Node / content names (XOR address space), modelled by naturals. -/
abbrev XorName := Nat

/-- Unique message identifiers. -/
abbrev MessageId := Nat

/-! ### Transfer store (src/transfers/store.rs)

The PickleDb on-disk key-value store is modelled as an association list of
string keys to events.  Iteration order of the underlying map is irrelevant
to `get_all` because it sorts by the parsed numeric key. -/

namespace Transfers

/-- Disk storage for transfers (struct TransferStore in src/transfers/store.rs). -/
structure TransferStore (ε : Type) where
  db : List (String × ε)

/-- PickleDb `exists`: whether `key` is present in the db. -/
def TransferStore.existsKey (s : TransferStore ε) (key : String) : Bool :=
  s.db.any (fun kv => kv.1 == key)

/-- PickleDb `total_keys`: the number of keys in the db. -/
def TransferStore.total_keys (s : TransferStore ε) : Nat :=
  s.db.length

/-- PickleDb `set`: insert or overwrite the value at `key`. -/
def TransferStore.set (s : TransferStore ε) (key : String) (v : ε) : TransferStore ε :=
  if s.existsKey key then
    ⟨s.db.map (fun kv => if kv.1 == key then (key, v) else kv)⟩
  else
    ⟨s.db ++ [(key, v)]⟩

/-- TransferStore::try_insert: the next key is the stringified current key
count; fails if that key already exists (surfaces corruption / concurrent
writers), otherwise stores the event under it. -/
def TransferStore.try_insert (s : TransferStore ε) (event : ε) :
    Except String (TransferStore ε) :=
  let key := Nat.repr s.total_keys
  if s.existsKey key then .error "Key exists"
  else .ok (s.set key event)

/-- The `(parsed key, value)` entries of the db: entries whose key parses as
a usize, as in the filter_map of TransferStore::get_all. -/
def TransferStore.parsedEntries (s : TransferStore ε) : List (Nat × ε) :=
  s.db.filterMap (fun kv => (kv.1.toNat?).map (fun k => (k, kv.2)))

/-- TransferStore::get_all: parse the numeric keys, sort by key, return the
events in ascending key order. -/
def TransferStore.get_all (s : TransferStore ε) : List ε :=
  (List.insertionSort (fun l r => l.1 ≤ r.1) s.parsedEntries).map (fun kv => kv.2)

/-- The empty store (a freshly created db with no events). -/
def TransferStore.empty (ε : Type) : TransferStore ε := ⟨[]⟩

/-- The canonical db contents after inserting `es` in order starting at
numeric key `k`: helper characterising the reachable store states. -/
def dbOfFrom (k : Nat) : List ε → List (String × ε)
  | [] => []
  | e :: es => (Nat.repr k, e) :: dbOfFrom (k + 1) es

/-- The canonical store holding exactly the events `es` under keys 0..n-1. -/
def storeOf (es : List ε) : TransferStore ε := ⟨dbOfFrom 0 es⟩

/-- The parsed-key image of `dbOfFrom`. -/
def pairsFrom (k : Nat) : List ε → List (Nat × ε)
  | [] => []
  | e :: es => (k, e) :: pairsFrom (k + 1) es

/-- Sequentially `try_insert` each event, stopping at the first failure. -/
def insertAll : TransferStore ε → List ε → Except String (TransferStore ε)
  | s, [] => .ok s
  | s, e :: es =>
    match s.try_insert e with
    | .ok s1 => insertAll s1 es
    | .error msg => .error msg

end Transfers

/-! ### Data handler (src/data_handler/mod.rs, vault revision)

The struct DataHandler owns an IDataHolder (always present) and, on Elders
only, the IData/MData/AData handlers.  Those four sub-components live in
modules outside the verified tree, so an invocation of one of them is
recorded as an explicit `Action` constructor carrying the arguments of the
call; the dispatch logic itself is translated verbatim.  The presence of
the three elder handlers is modelled by the single flag `isElder`, exactly
as DataHandler::new couples them. -/

namespace Vault

/-- safe_nd NodePublicId, reduced to its name. -/
abbrev NodePublicId := Nat

/-- Address of an immutable-data chunk. -/
abbrev IDataAddress := Nat

/-- An immutable-data chunk (opaque to the dispatch logic). -/
abbrev IData := Nat

/-- safe_nd error payloads (opaque to the dispatch logic). -/
abbrev NdError := Nat

deriving instance DecidableEq for Except

/-- safe_nd PublicId: the requester is a client, an app, or a node.  The
node / non-node distinction is the authorization discriminator. -/
inductive PublicId
  | client (id : Nat)
  | app (id : Nat)
  | node (id : NodePublicId)
deriving DecidableEq

/-- Whether the requester is a node (matches PublicId::Node(_)). -/
def PublicId.isNode : PublicId → Bool
  | .node _ => true
  | _ => false

/-- routing SrcLocation: a single node or a section.  (`sectionLoc` stands
for SrcLocation::Section; `section` is a Lean keyword.) -/
inductive SrcLocation
  | node (name : XorName)
  | sectionLoc (name : XorName)
deriving DecidableEq

/-- SrcLocation::is_section. -/
def SrcLocation.is_section : SrcLocation → Bool
  | .sectionLoc _ => true
  | .node _ => false

/-- utils::get_source_name: the XorName of the source location. -/
def get_source_name : SrcLocation → XorName
  | .node n => n
  | .sectionLoc n => n

/-- safe_nd IDataRequest. -/
inductive IDataRequest
  | put (data : IData)
  | get (address : IDataAddress)
  | deleteUnpub (address : IDataAddress)
deriving DecidableEq

/-- safe_nd Request: the variants the data handler matches on.  The MData,
AData, Coins, LoginPacket and Client payloads are opaque here. -/
inductive Request
  | idata (r : IDataRequest)
  | mdata (r : Nat)
  | adata (r : Nat)
  | coins (r : Nat)
  | loginPacket (r : Nat)
  | clientReq (r : Nat)
deriving DecidableEq

/-- safe_nd Response: the variants the data handler matches on; all other
variants are collapsed into `otherResponse` (the source logs and drops
them uniformly). -/
inductive Response
  | mutation (result : Except NdError Unit)
  | getIData (result : Except NdError IData)
  | otherResponse (tag : Nat)
deriving DecidableEq

/-- The vault Rpc envelope (fields not read by the embedded handlers, such
as the response requester and proof, are elided). -/
inductive Rpc
  | request (request : Request) (requester : PublicId) (message_id : MessageId)
  | response (response : Response) (message_id : MessageId)
  | duplicate (address : IDataAddress) (holders : Finset XorName) (message_id : MessageId)
  | duplicationComplete (response : Response) (message_id : MessageId)
deriving DecidableEq

/-- Actions returned by the data handler.  `sendMessage` is the concrete
Action::SendMessage built in handle_duplicate_request; every `holder...`
and `elder...` constructor records an invocation of the IDataHolder
resp. the elder IData/MData/AData handler sub-component (whose sources are
outside the verified tree) together with the arguments passed to it. -/
inductive Action
  | sendMessage (sender : XorName) (targets : Finset XorName) (rpc : Rpc)
  | holderStoreIData (src : SrcLocation) (data : IData) (requester : PublicId)
      (message_id : MessageId)
  | holderGetIData (src : SrcLocation) (address : IDataAddress) (requester : PublicId)
      (message_id : MessageId)
  | holderDeleteUnpubIData (address : IDataAddress) (requester : PublicId)
      (message_id : MessageId)
  | elderPutIDataReq (requester : PublicId) (data : IData) (message_id : MessageId)
  | elderGetIDataReq (requester : PublicId) (address : IDataAddress) (message_id : MessageId)
  | elderDeleteUnpubIDataReq (requester : PublicId) (address : IDataAddress)
      (message_id : MessageId)
  | elderMutationResp (sender : XorName) (result : Except NdError Unit) (message_id : MessageId)
  | elderGetIDataResp (sender : XorName) (result : Except NdError IData) (message_id : MessageId)
  | elderUpdateIDataHolders (sender : XorName) (result : Except NdError Unit)
      (message_id : MessageId)
  | mdataHandle (requester : PublicId) (r : Nat) (message_id : MessageId)
  | adataHandle (requester : PublicId) (r : Nat) (message_id : MessageId)
deriving DecidableEq

/-- struct DataHandler: its name, whether the elder handlers are present
(is_elder in DataHandler::new), and the in-flight duplication dedup set. -/
structure DataHandler where
  id : NodePublicId
  isElder : Bool
  idata_duplicate_op : Finset MessageId
deriving DecidableEq

/-- DataHandler::handle_idata_request: run the elder idata-handler
operation if this node is an elder, otherwise trace and drop.  The closure
argument of the source is the action its invocation would produce. -/
def DataHandler.handle_idata_request (s : DataHandler) (operation : Option Action) :
    Option Action :=
  if s.isElder then operation else none

/-- DataHandler::handle_duplicate_request: on a Duplicate order, if the
message id is not already in the dedup set, record it and send one Get for
the chunk to the existing holders, as a Node requester; otherwise no-op. -/
def DataHandler.handle_duplicate_request (s : DataHandler) (address : IDataAddress)
    (holders : Finset XorName) (message_id : MessageId) : DataHandler × Option Action :=
  if message_id ∉ s.idata_duplicate_op then
    ({ s with idata_duplicate_op := insert message_id s.idata_duplicate_op },
      some (.sendMessage s.id holders
        (.request (.idata (.get address)) (.node s.id) message_id)))
  else
    (s, none)

/-- DataHandler::complete_duplication: a Mutation response finalises the
holder index via the elder idata handler; any other response is logged and
dropped.  The source takes `&mut self` but never touches
`idata_duplicate_op` here, so the modelled state is returned unchanged. -/
def DataHandler.complete_duplication (s : DataHandler) (sender : SrcLocation)
    (response : Response) (message_id : MessageId) : DataHandler × Option Action :=
  match response with
  | .mutation result =>
    (s, s.handle_idata_request
        (some (.elderUpdateIDataHolders (get_source_name sender) result message_id)))
  | _ => (s, none)

/-- DataHandler::handle_request: dispatch of an inbound request.  For IData
Get, serving from the local holder is chosen iff the source is a section or
the requester is itself a node; otherwise the request goes to the elder
idata handler (none on Adults). -/
def DataHandler.handle_request (s : DataHandler) (src : SrcLocation) (requester : PublicId)
    (request : Request) (message_id : MessageId) : Option Action :=
  match request with
  | .idata idata_req =>
    match idata_req with
    | .put data =>
      if src.is_section then
        some (.holderStoreIData src data requester message_id)
      else
        s.handle_idata_request (some (.elderPutIDataReq requester data message_id))
    | .get address =>
      if src.is_section || requester.isNode then
        some (.holderGetIData src address requester message_id)
      else
        s.handle_idata_request (some (.elderGetIDataReq requester address message_id))
    | .deleteUnpub address =>
      if src.is_section then
        some (.holderDeleteUnpubIData address requester message_id)
      else
        s.handle_idata_request
          (some (.elderDeleteUnpubIDataReq requester address message_id))
  | .mdata r =>
    if s.isElder then some (.mdataHandle requester r message_id) else none
  | .adata r =>
    if s.isElder then some (.adataHandle requester r message_id) else none
  | .coins _ => none
  | .loginPacket _ => none
  | .clientReq _ => none

/-- DataHandler::handle_response.  A GetIData response whose id is in the
dedup set is an in-flight duplication: on Ok the id is removed and the
chunk is stored at the local holder with this node as requester; on Err
nothing happens.  Ids not in the set go to the elder idata handler. -/
def DataHandler.handle_response (s : DataHandler) (src : SrcLocation) (response : Response)
    (message_id : MessageId) : DataHandler × Option Action :=
  match response with
  | .mutation result =>
    (s, s.handle_idata_request
        (some (.elderMutationResp (get_source_name src) result message_id)))
  | .getIData result =>
    if message_id ∈ s.idata_duplicate_op then
      match result with
      | .ok data =>
        ({ s with idata_duplicate_op := s.idata_duplicate_op.erase message_id },
          some (.holderStoreIData src data (.node s.id) message_id))
      | .error _ => (s, none)
    else
      (s, s.handle_idata_request
          (some (.elderGetIDataResp (get_source_name src) result message_id)))
  | .otherResponse _ => (s, none)

/-- DataHandler::handle_vault_rpc: top-level dispatch on the envelope. -/
def DataHandler.handle_vault_rpc (s : DataHandler) (src : SrcLocation) (rpc : Rpc) :
    DataHandler × Option Action :=
  match rpc with
  | .request request requester message_id =>
    (s, s.handle_request src requester request message_id)
  | .response response message_id => s.handle_response src response message_id
  | .duplicate address holders message_id =>
    s.handle_duplicate_request address holders message_id
  | .duplicationComplete response message_id =>
    s.complete_duplication src response message_id

/-- DataHandler::trigger_chunk_duplication: delegate to the elder idata
handler (whose trigger_data_copy_process is outside the verified tree,
hence passed as a function); none on Adults. -/
def DataHandler.trigger_chunk_duplication (dataCopy : XorName → Option (List Action))
    (s : DataHandler) (node : XorName) : Option (List Action) :=
  if s.isElder then dataCopy node else none

/-- One inbound Duplicate order: the fields of Rpc::Duplicate. -/
structure DupOrder where
  address : IDataAddress
  holders : Finset XorName
  message_id : MessageId
deriving DecidableEq

/-- Deliver a list of Duplicate orders in sequence, collecting every
emitted action. -/
def runDuplicateOrders : DataHandler → List DupOrder → DataHandler × List Action
  | s, [] => (s, [])
  | s, o :: os =>
    let step := s.handle_duplicate_request o.address o.holders o.message_id
    let rest := runDuplicateOrders step.1 os
    (rest.1, step.2.toList ++ rest.2)

/-- Whether an action is an outbound Get request with the given message id
(the shape built by handle_duplicate_request). -/
def isGetWithId (m : MessageId) : Action → Bool
  | .sendMessage _ _ (.request (.idata (.get _)) _ mid) => mid == m
  | _ => false

/-- How many of the actions are outbound Gets with message id `m`. -/
def countGetsWithId (m : MessageId) (acts : List Action) : Nat :=
  (acts.filter (isGetWithId m)).length

end Vault

/-! ### Adult data module (src/duties/adult/data/mod.rs)

The struct Data holds the chunk storage and a routing handle giving the
section public key.  Signature verification (threshold_crypto
PublicKey::verify over the serialised request) is external cryptography,
so it is taken as an explicit oracle parameter `verify`; the chunk storage
lives outside the verified tree, so an invocation of ChunkStorage::store
is recorded as an action carrying exactly the arguments of the call. -/

namespace Adult

/-- A bls section signature (opaque bytes). -/
abbrev Signature := Nat

/-- A bls section public key (opaque). -/
abbrev PublicKey := Nat

/-- The request carried inside a response proof (opaque to this module:
it is only serialised for verification and forwarded to storage). -/
abbrev Request := Nat

/-- The responses the adult data module matches on; everything that is not
GetIData is logged and dropped uniformly. -/
inductive Response
  | getIData (result : Except Vault.NdError Vault.IData)
  | otherResponse (tag : Nat)
deriving DecidableEq

/-- The action produced by the adult data module: the invocation of
ChunkStorage::store with the arguments passed at the call site. -/
inductive Action
  | storeChunk (src : Vault.SrcLocation) (data : Vault.IData) (requester : Vault.PublicId)
      (message_id : MessageId) (signature : Option Signature) (request : Request)
deriving DecidableEq

/-- struct Data, reduced to the section public key obtainable from the
routing node (Data::public_key; none when the key set is unavailable). -/
structure Data where
  sectionPk : Option PublicKey
deriving DecidableEq

/-- Data::public_key. -/
def Data.public_key (d : Data) : Option PublicKey := d.sectionPk

/-- Data::validate_section_signature: verify the signature over the
serialised request against the current section public key; `verify` is the
crypto oracle standing for threshold_crypto verification composed with
serialisation. -/
def Data.validate_section_signature (verify : PublicKey → Signature → Request → Bool)
    (d : Data) (request : Request) (signature : Signature) : Option Unit :=
  match d.public_key with
  | none => none
  | some pk => if verify pk signature request then some () else none

/-- Data::handle_response: requires a proof (request, signature); for
non-node requesters the section signature is validated and failure drops
the response; a GetIData Ok result for a node requester stores the
duplication copy. -/
def Data.handle_response (verify : PublicKey → Signature → Request → Bool) (d : Data)
    (src : Vault.SrcLocation) (response : Response) (requester : Vault.PublicId)
    (message_id : MessageId) (proof : Option (Request × Signature)) : Option Action :=
  match proof with
  | some (request, signature) =>
    if !requester.isNode
        && (d.validate_section_signature verify request signature) = none then
      none
    else
      match response with
      | .getIData result =>
        if requester.isNode then
          match result with
          | .ok data =>
            some (.storeChunk src data requester message_id (some signature) request)
          | .error _ => none
        else
          none
      | .otherResponse _ => none
  | none => none

end Adult

/-! ### Payments (src/node/elder_duties/key_section/payment/mod.rs)

Payments::process_payment gates a client data write on a payment to the
section wallet.  The ReplicaManager it drives lives outside the verified
tree; its four entry points used here are modelled from the spec (see the
doc comments below).  The ElderMsgWrapping sender is likewise outside the
tree; its `error` and `forward` calls are modelled from the spec as
constructing the outbound operation to the message origin. -/

namespace Payment

/-- A bls public key (section wallet id), opaque. -/
abbrev PublicKey := Nat

/-- The network address of the message origin (msg.origin.address()). -/
abbrev Address := Nat

/-- Token amounts in nanos. -/
abbrev Token := Nat

/-- The `payment` of Cmd::Data: a transfer agreement proof, reduced to the
fields process_payment reads — recipient (payment.to()) and amount. -/
structure TransferAgreementProof where
  recipient : PublicKey
  amount : Token
deriving DecidableEq

/-- The inner data cmd of Cmd::Data, modelled by its serialised bytes
(utils::serialise; only its length is read). -/
abbrev DataCmd := List Bool

/-- sn_data_types Error, reduced to the variants this module produces. -/
inductive SnError
  | noSuchRecipient
  | insufficientBalance
  | noSuchKey
  | other (tag : Nat)
deriving DecidableEq

/-- sn_data_types TransferError as used here. -/
inductive TransferError
  | transferRegistration (e : SnError)
deriving DecidableEq

/-- sn_data_types CmdError as used here. -/
inductive CmdError
  | transfer (e : TransferError)
deriving DecidableEq

/-- The messages process_payment matches on: a Cmd::Data with payment and
cmd, or anything else (ignored). -/
inductive Message
  | cmdData (payment : TransferAgreementProof) (cmd : DataCmd)
  | otherMessage (tag : Nat)
deriving DecidableEq

/-- MsgEnvelope, reduced to the fields process_payment reads. -/
structure MsgEnvelope where
  message : Message
  id : MessageId
  origin : Address
deriving DecidableEq

/-- Modelled from the spec: the replica wallet events appended by
register / receive_propagated (spec section 4.4; replica_manager.rs is not
under the verified tree). -/
inductive ReplicaEvent
  | transferRegistered (p : TransferAgreementProof)
  | transferPropagated (p : TransferAgreementProof)
deriving DecidableEq

/-- Modelled from the spec: the ReplicaManager state visible to Payments
(replica_manager.rs is not under the verified tree).  `pkSet` is the
public key of the replica key set (none when unavailable);
`registerCheck` / `propagateCheck` give the validation outcome of
register / receive_propagated for a payment proof (none = valid);
`storeCost` is the current store-cost function; `events` is the section
wallet event log. -/
structure ReplicaManager where
  pkSet : Option PublicKey
  registerCheck : TransferAgreementProof → Option SnError
  propagateCheck : TransferAgreementProof → Option SnError
  storeCost : Nat → Option Token
  events : List ReplicaEvent

/-- ReplicaManager::replicas_pk_set, reduced to the combined public key. -/
def ReplicaManager.replicas_pk_set (rm : ReplicaManager) : Option PublicKey :=
  rm.pkSet

/-- Modelled from the spec: ReplicaManager::register validates the credit
agreement proof and, if valid, appends TransferRegistered to the wallet
(spec section 4.4). -/
def ReplicaManager.register (rm : ReplicaManager) (p : TransferAgreementProof) :
    ReplicaManager × Except SnError Unit :=
  match rm.registerCheck p with
  | none => ({ rm with events := rm.events ++ [.transferRegistered p] }, .ok ())
  | some e => (rm, .error e)

/-- Modelled from the spec: ReplicaManager::receive_propagated validates
the proof and, if valid, appends TransferPropagated (spec section 4.4). -/
def ReplicaManager.receive_propagated (rm : ReplicaManager) (p : TransferAgreementProof) :
    ReplicaManager × Except SnError Unit :=
  match rm.propagateCheck p with
  | none => ({ rm with events := rm.events ++ [.transferPropagated p] }, .ok ())
  | some e => (rm, .error e)

/-- ReplicaManager::get_store_cost (none when the cost is unavailable, in
which case process_payment yields no operation). -/
def ReplicaManager.get_store_cost (rm : ReplicaManager) (num_bytes : Nat) : Option Token :=
  rm.storeCost num_bytes

/-- The outbound operation produced by Payments: a wrapped section-signed
error back to the origin, or the cmd forwarded onward.  Modelled from the
spec: ElderMsgWrapping (not under the verified tree) builds the envelope;
only its destination and payload are retained. -/
inductive NodeOperation
  | sendError (error : CmdError) (correlation_id : MessageId) (dst : Address)
  | forward (msg : MsgEnvelope)
deriving DecidableEq

/-- Payments::section_wallet_id: the section wallet public key from the
replica key set, or NoSuchKey. -/
def section_wallet_id (rm : ReplicaManager) : Except SnError PublicKey :=
  match rm.replicas_pk_set with
  | some keys => .ok keys
  | none => .error .noSuchKey

/-- Payments::process_payment.  Only Cmd::Data is processed.  A recipient
other than the section wallet is rejected with NoSuchRecipient before any
replica call.  Then the payment is registered and propagated; any failure
is returned as a TransferRegistration error.  On success the store cost of
the serialised cmd is charged: paying less than the cost returns
InsufficientBalance (the paid amount stays in the wallet); otherwise the
cmd is forwarded. -/
def process_payment (rm : ReplicaManager) (msg : MsgEnvelope) :
    ReplicaManager × Option NodeOperation :=
  match msg.message with
  | .cmdData payment cmd =>
    let num_bytes := cmd.length
    let recipient_is_not_section : Bool :=
      match section_wallet_id rm with
      | .ok sectionKey => payment.recipient != sectionKey
      | .error _ => true
    if recipient_is_not_section then
      (rm, some (.sendError (.transfer (.transferRegistration .noSuchRecipient))
        msg.id msg.origin))
    else
      match rm.register payment with
      | (rm1, .ok _) =>
        match rm1.receive_propagated payment with
        | (rm2, .ok _) =>
          match rm2.get_store_cost num_bytes with
          | none => (rm2, none)
          | some total_cost =>
            if total_cost > payment.amount then
              (rm2, some (.sendError
                (.transfer (.transferRegistration .insufficientBalance)) msg.id msg.origin))
            else
              (rm2, some (.forward msg))
        | (rm2, .error e) =>
          (rm2, some (.sendError (.transfer (.transferRegistration e)) msg.id msg.origin))
      | (rm1, .error e) =>
        (rm1, some (.sendError (.transfer (.transferRegistration e)) msg.id msg.origin))
  | .otherMessage _ => (rm, none)

end Payment

/-! ### Node duty handler (src/node/handle.rs)

Node::handle matches on the NodeDuty; only the duties the claims concern
are embedded.  The capability components (Metadata, Transfers,
SectionFunds, Chunks) live outside the verified tree and are opaque here;
Chunks::new is modelled from the spec as constructing a fresh chunk
capability from the node name, root dir and used-space handle. -/

namespace NodeM

/-- Opaque metadata capability. -/
abbrev Metadata := Nat

/-- Opaque transfers capability. -/
abbrev Transfers := Nat

/-- Opaque section-funds capability. -/
abbrev SectionFunds := Nat

/-- Modelled from the spec: the immutable-chunk capability built by
Chunks::new(node_name, root_dir, used_space) (chunks module not under the
verified tree). -/
structure Chunks where
  node_name : XorName
  root_dir : Nat
  used_space : Nat
deriving DecidableEq

/-- Chunks::new. -/
def Chunks.new (node_name : XorName) (root_dir : Nat) (used_space : Nat) : Chunks :=
  ⟨node_name, root_dir, used_space⟩

/-- The node_info fields read by the embedded duties. -/
structure NodeInfo where
  node_name : XorName
  root_dir : Nat
deriving DecidableEq

/-- The Node fields read or written by the embedded duties. -/
structure NodeState where
  meta_data : Option Metadata
  transfers : Option Transfers
  section_funds : Option SectionFunds
  chunks : Option Chunks
  node_info : NodeInfo
  used_space : Nat
deriving DecidableEq

/-- The NodeDuty variants the claims concern (the source enum has many
more, all dispatched by the same match). -/
inductive NodeDuty
  | processNewMember (name : XorName)
  | processLostMember (name : XorName) (age : Nat)
  | levelDown
  | noOp
deriving DecidableEq

/-- Node::handle on the embedded duties.  ProcessNewMember and
ProcessLostMember return Ok(vec![]) without touching the state; LevelDown
drops the metadata, transfers and section-funds capabilities and installs
a freshly created chunk capability, returning no duties. -/
def Node.handle (s : NodeState) : NodeDuty → NodeState × List NodeDuty
  | .processNewMember _ => (s, [])
  | .processLostMember _ _ => (s, [])
  | .levelDown =>
    ({ s with
        meta_data := none
        transfers := none
        section_funds := none
        chunks := some (Chunks.new s.node_info.node_name s.node_info.root_dir s.used_space) },
      [])
  | .noOp => (s, [])

end NodeM

/-! ## Supporting lemmas

Decimal numerals: `Nat.repr` (Rust usize::to_string) round-trips through
`String.toNat?` (Rust str::parse::<usize>), hence is injective.  This is
what makes the transfer-store key scheme sound. -/

theorem digitChar_isDigit (d : Nat) (h : d < 10) : (Nat.digitChar d).isDigit = true := by
  interval_cases d <;> decide

theorem digitChar_val (d : Nat) (h : d < 10) :
    (Nat.digitChar d).toNat - Char.toNat '0' = d := by
  interval_cases d <;> decide

theorem toDigitsCore_spec (n : Nat) : ∀ fuel, n < fuel → ∀ ds : List Char,
    ∃ pre : List Char,
      Nat.toDigitsCore 10 fuel n ds = pre ++ ds
      ∧ pre ≠ []
      ∧ (∀ c ∈ pre, c.isDigit = true)
      ∧ ∀ a : Nat,
          pre.foldl (fun acc c => acc * 10 + (c.toNat - Char.toNat '0')) a
            = a * 10 ^ pre.length + n := by
  induction n using Nat.strong_induction_on with
  | _ n ih =>
    intro fuel hfuel ds
    match fuel, hfuel with
    | fuel + 1, hfuel =>
      by_cases h0 : n / 10 = 0
      · refine ⟨[Nat.digitChar (n % 10)], ?_, by simp, ?_, ?_⟩
        · simp [Nat.toDigitsCore, h0]
        · intro c hc
          rw [List.mem_singleton] at hc
          exact hc ▸ digitChar_isDigit _ (Nat.mod_lt _ (by omega))
        · intro a
          have hn : n % 10 = n := by omega
          simp only [List.foldl_cons, List.foldl_nil, List.length_singleton, pow_one]
          rw [digitChar_val _ (Nat.mod_lt n (by omega)), hn]
      · have hstep : Nat.toDigitsCore 10 (fuel + 1) n ds
            = Nat.toDigitsCore 10 fuel (n / 10) (Nat.digitChar (n % 10) :: ds) := by
          simp [Nat.toDigitsCore, h0]
        have hlt : n / 10 < n := Nat.div_lt_self (by omega) (by omega)
        have hfe : n / 10 < fuel := by omega
        obtain ⟨pre, hpre, hne, hdig, hval⟩ :=
          ih (n / 10) hlt fuel hfe (Nat.digitChar (n % 10) :: ds)
        refine ⟨pre ++ [Nat.digitChar (n % 10)], ?_, by simp, ?_, ?_⟩
        · rw [hstep, hpre]; simp
        · intro c hc
          rcases List.mem_append.mp hc with h | h
          · exact hdig c h
          · rw [List.mem_singleton] at h
            exact h ▸ digitChar_isDigit _ (Nat.mod_lt _ (by omega))
        · intro a
          rw [List.foldl_append, hval a]
          simp only [List.foldl_cons, List.foldl_nil, List.length_append,
            List.length_singleton]
          rw [digitChar_val _ (Nat.mod_lt n (by omega))]
          have hdm : 10 * (n / 10) + n % 10 = n := Nat.div_add_mod n 10
          calc (a * 10 ^ pre.length + n / 10) * 10 + n % 10
              = a * (10 ^ pre.length * 10) + (10 * (n / 10) + n % 10) := by ring
            _ = a * 10 ^ (pre.length + 1) + n := by rw [hdm, pow_succ]

theorem toNat?_repr (n : Nat) : (Nat.repr n).toNat? = some n := by
  obtain ⟨pre, hpre, hne, hdig, hval⟩ := toDigitsCore_spec n (n + 1) (Nat.lt_succ_self n) []
  have hrepr : Nat.repr n = ⟨pre⟩ := by
    rw [Nat.repr, Nat.toDigits, hpre, List.append_nil, List.asString]
  have hall : String.all ⟨pre⟩ Char.isDigit = true := by
    rw [String.all_eq]
    exact List.all_eq_true.mpr hdig
  have hempty : String.isEmpty ⟨pre⟩ = false := by
    rw [Bool.eq_false_iff]
    intro hcontra
    have := (String.isEmpty_iff _).mp hcontra
    have : pre = [] := by
      have h2 : (⟨pre⟩ : String).data = ("" : String).data := by rw [this]
      simpa using h2
    exact hne this
  rw [hrepr, String.toNat?, if_pos]
  · rw [String.foldl_eq]
    have := hval 0
    simp only [Nat.zero_mul, Nat.zero_add] at this
    exact congrArg some this
  · rw [String.isNat, hempty, hall]
    rfl

theorem repr_injective : Function.Injective Nat.repr := by
  intro a b h
  have ha := toNat?_repr a
  rw [h, toNat?_repr b] at ha
  exact (Option.some.inj ha).symm

namespace Transfers

theorem dbOfFrom_length (es : List ε) : ∀ k, (dbOfFrom k es).length = es.length := by
  induction es with
  | nil => intro k; rfl
  | cons e es ih => intro k; simp [dbOfFrom, ih]

theorem dbOfFrom_existsKey_high (es : List ε) : ∀ k m, k + es.length ≤ m →
    (TransferStore.mk (dbOfFrom k es)).existsKey (Nat.repr m) = false := by
  induction es with
  | nil => intro k m _; rfl
  | cons e es ih =>
    intro k m hm
    have hne : Nat.repr k ≠ Nat.repr m := by
      intro hc
      have := repr_injective hc
      simp [dbOfFrom] at hm
      omega
    have htail := ih (k + 1) m (by simp at hm ⊢; omega)
    simp only [TransferStore.existsKey, dbOfFrom, List.any_cons] at htail ⊢
    rw [htail]
    simp [hne]

theorem try_insert_storeOf (xs : List ε) (e : ε) :
    (storeOf xs).try_insert e = .ok (storeOf (xs ++ [e])) := by
  have hlen : (storeOf xs).total_keys = xs.length := dbOfFrom_length xs 0
  have hfree : (storeOf xs).existsKey (Nat.repr xs.length) = false :=
    dbOfFrom_existsKey_high xs 0 xs.length (by omega)
  have happend : ∀ k (ys : List ε),
      dbOfFrom k (ys ++ [e]) = dbOfFrom k ys ++ [(Nat.repr (k + ys.length), e)] := by
    intro k ys
    induction ys generalizing k with
    | nil => simp [dbOfFrom]
    | cons y ys ih =>
      simp [dbOfFrom, ih]
      congr 1
      omega
  rw [TransferStore.try_insert, hlen, hfree]
  simp only [Bool.false_eq_true, if_false, TransferStore.set, hfree]
  simp [storeOf, happend 0 xs]

theorem insertAll_storeOf (es : List ε) : ∀ xs : List ε,
    insertAll (storeOf xs) es = .ok (storeOf (xs ++ es)) := by
  induction es with
  | nil => intro xs; simp [insertAll]
  | cons e es ih =>
    intro xs
    rw [insertAll, try_insert_storeOf xs e]
    show insertAll (storeOf (xs ++ [e])) es = _
    rw [ih (xs ++ [e])]
    simp

theorem parsedEntries_storeOf (es : List ε) : ∀ k,
    (TransferStore.mk (dbOfFrom k es)).parsedEntries = pairsFrom k es := by
  induction es with
  | nil => intro k; rfl
  | cons e es ih =>
    intro k
    have htail := ih (k + 1)
    simp only [TransferStore.parsedEntries] at htail
    simp only [TransferStore.parsedEntries, dbOfFrom, pairsFrom, List.filterMap_cons,
      toNat?_repr, Option.map_some']
    exact congrArg (List.cons (k, e)) htail

theorem pairsFrom_key_ge (es : List ε) : ∀ k, ∀ p ∈ pairsFrom k es, k ≤ p.1 := by
  induction es with
  | nil => intro k p hp; simp [pairsFrom] at hp
  | cons e es ih =>
    intro k p hp
    simp only [pairsFrom, List.mem_cons] at hp
    rcases hp with h | h
    · simp [h]
    · have := ih (k + 1) p h
      omega

theorem pairsFrom_sorted (es : List ε) : ∀ k,
    List.Sorted (fun l r : Nat × ε => l.1 ≤ r.1) (pairsFrom k es) := by
  induction es with
  | nil => intro k; simp [pairsFrom, List.Sorted]
  | cons e es ih =>
    intro k
    rw [pairsFrom, List.sorted_cons]
    refine ⟨fun p hp => ?_, ih (k + 1)⟩
    have := pairsFrom_key_ge es (k + 1) p hp
    omega

theorem pairsFrom_map_snd (es : List ε) : ∀ k,
    (pairsFrom k es).map (fun kv => kv.2) = es := by
  induction es with
  | nil => intro k; rfl
  | cons e es ih => intro k; simp only [pairsFrom, List.map_cons, ih]

theorem get_all_storeOf (es : List ε) : (storeOf es).get_all = es := by
  rw [TransferStore.get_all, storeOf, parsedEntries_storeOf es 0,
    List.Sorted.insertionSort_eq (pairsFrom_sorted es 0), pairsFrom_map_snd]

theorem dbOfFrom_keys (es : List ε) : ∀ k,
    (dbOfFrom k es).map Prod.fst = (List.range' k es.length).map Nat.repr := by
  induction es with
  | nil => intro k; rfl
  | cons e es ih => intro k; simp [dbOfFrom, List.range', ih]

end Transfers

namespace Vault

theorem handle_duplicate_request_of_mem (s : DataHandler) (address : IDataAddress)
    (holders : Finset XorName) (m : MessageId) (h : m ∈ s.idata_duplicate_op) :
    s.handle_duplicate_request address holders m = (s, none) := by
  simp [DataHandler.handle_duplicate_request, h]

theorem runDuplicateOrders_of_mem (m : MessageId) : ∀ (os : List DupOrder) (s : DataHandler),
    m ∈ s.idata_duplicate_op → countGetsWithId m (runDuplicateOrders s os).2 = 0 := by
  intro os
  induction os with
  | nil => intro s _; rfl
  | cons o os ih =>
    intro s h
    by_cases hmem : o.message_id ∈ s.idata_duplicate_op
    · rw [runDuplicateOrders]
      simp only [handle_duplicate_request_of_mem s o.address o.holders o.message_id hmem,
        Option.toList_none, List.nil_append]
      exact ih s h
    · have hne : o.message_id ≠ m := fun he => hmem (he ▸ h)
      rw [runDuplicateOrders]
      simp only [DataHandler.handle_duplicate_request, hmem, not_false_eq_true, if_pos]
      rw [countGetsWithId, List.filter_append, List.length_append]
      have hfilter : List.filter (isGetWithId m)
          (Option.toList (some (Action.sendMessage s.id o.holders
            (.request (.idata (.get o.address)) (.node s.id) o.message_id)))) = [] := by
        simp [isGetWithId, hne]
      rw [hfilter]
      have := ih { s with idata_duplicate_op := insert o.message_id s.idata_duplicate_op }
        (Finset.mem_insert_of_mem h)
      rw [countGetsWithId] at this
      simp [this]

theorem runDuplicateOrders_le_one (m : MessageId) : ∀ (os : List DupOrder) (s : DataHandler),
    countGetsWithId m (runDuplicateOrders s os).2 ≤ 1 := by
  intro os
  induction os with
  | nil => intro s; simp [runDuplicateOrders, countGetsWithId]
  | cons o os ih =>
    intro s
    by_cases hmem : o.message_id ∈ s.idata_duplicate_op
    · rw [runDuplicateOrders]
      simp only [handle_duplicate_request_of_mem s o.address o.holders o.message_id hmem,
        Option.toList_none, List.nil_append]
      exact ih s
    · rw [runDuplicateOrders]
      simp only [DataHandler.handle_duplicate_request, hmem, not_false_eq_true, if_pos]
      rw [countGetsWithId, List.filter_append, List.length_append]
      by_cases heq : o.message_id = m
      · have hrest := runDuplicateOrders_of_mem m os
          { s with idata_duplicate_op := insert o.message_id s.idata_duplicate_op }
          (heq ▸ Finset.mem_insert_self o.message_id s.idata_duplicate_op)
        rw [countGetsWithId] at hrest
        rw [hrest]
        simp [isGetWithId, heq]
      · have hfilter : List.filter (isGetWithId m)
            (Option.toList (some (Action.sendMessage s.id o.holders
              (.request (.idata (.get o.address)) (.node s.id) o.message_id)))) = [] := by
          simp [isGetWithId, heq]
        rw [hfilter]
        have := ih { s with idata_duplicate_op := insert o.message_id s.idata_duplicate_op }
        rw [countGetsWithId] at this
        simpa using this

end Vault

/-! ## Claims -/

/-- Claim C1: in Payments::process_payment, for every Cmd::Data message
whose payment recipient matches the section wallet and whose registration
and propagation succeed, if the paid amount is below the store cost of the
serialised cmd then an InsufficientBalance error is returned to the
origin while the already-appended registration and propagation events
remain in the wallet — the paid amount is forfeit, not refunded. -/
theorem payment_underpayment_forfeits
    (rm : Payment.ReplicaManager) (msg : Payment.MsgEnvelope)
    (payment : Payment.TransferAgreementProof) (cmd : Payment.DataCmd)
    (k : Payment.PublicKey) (cost : Payment.Token)
    (hmsg : msg.message = .cmdData payment cmd)
    (hpk : rm.pkSet = some k)
    (hrecip : payment.recipient = k)
    (hreg : rm.registerCheck payment = none)
    (hprop : rm.propagateCheck payment = none)
    (hcost : rm.storeCost cmd.length = some cost)
    (hunder : payment.amount < cost) :
    Payment.process_payment rm msg =
      ({ rm with events := rm.events
           ++ [.transferRegistered payment, .transferPropagated payment] },
        some (.sendError (.transfer (.transferRegistration .insufficientBalance))
          msg.id msg.origin)) := by
  simp [Payment.process_payment, hmsg, Payment.section_wallet_id,
    Payment.ReplicaManager.replicas_pk_set, hpk, hrecip,
    Payment.ReplicaManager.register, hreg,
    Payment.ReplicaManager.receive_propagated, hprop,
    Payment.ReplicaManager.get_store_cost, hcost, hunder]

/-- Witness for C1 at a concrete input: wallet key 5, payment of 1 to
recipient 5, cmd of 2 serialised bytes at store cost 4. -/
theorem payment_underpayment_forfeits_witness :
    Payment.process_payment
      ⟨some 5, fun _ => none, fun _ => none, fun n => some (n + 2), []⟩
      ⟨.cmdData ⟨5, 1⟩ [true, true], 77, 9⟩ =
      (⟨some 5, fun _ => none, fun _ => none, fun n => some (n + 2),
          [.transferRegistered ⟨5, 1⟩, .transferPropagated ⟨5, 1⟩]⟩,
        some (.sendError (.transfer (.transferRegistration .insufficientBalance)) 77 9)) :=
  payment_underpayment_forfeits _ _ ⟨5, 1⟩ [true, true] 5 4
    rfl rfl rfl rfl rfl rfl (by decide)

/-- Claim C3: in Payments::process_payment, for every Cmd::Data message
whose payment recipient differs from this section's wallet public key, a
NoSuchRecipient error is returned to the origin and the replica state is
untouched: no transfer events are appended (register and
receive_propagated are never invoked). -/
theorem payment_wrong_recipient_rejected
    (rm : Payment.ReplicaManager) (msg : Payment.MsgEnvelope)
    (payment : Payment.TransferAgreementProof) (cmd : Payment.DataCmd)
    (k : Payment.PublicKey)
    (hmsg : msg.message = .cmdData payment cmd)
    (hpk : rm.pkSet = some k)
    (hrecip : payment.recipient ≠ k) :
    Payment.process_payment rm msg =
      (rm, some (.sendError (.transfer (.transferRegistration .noSuchRecipient))
        msg.id msg.origin)) := by
  simp [Payment.process_payment, hmsg, Payment.section_wallet_id,
    Payment.ReplicaManager.replicas_pk_set, hpk, hrecip]

/-- Witness for C3 at a concrete input: wallet key 5, payment recipient 6. -/
theorem payment_wrong_recipient_rejected_witness :
    Payment.process_payment
      ⟨some 5, fun _ => none, fun _ => none, fun n => some (n + 2), []⟩
      ⟨.cmdData ⟨6, 100⟩ [true], 77, 9⟩ =
      (⟨some 5, fun _ => none, fun _ => none, fun n => some (n + 2), []⟩,
        some (.sendError (.transfer (.transferRegistration .noSuchRecipient)) 77 9)) :=
  payment_wrong_recipient_rejected _ _ ⟨6, 100⟩ [true] 5 rfl rfl (by decide)

/-- Claim C2: over any sequence of DuplicateOrder deliveries, at most one
outbound Get with message id m is ever emitted, and while m is in the
idata_duplicate_op set a redundant DuplicateOrder with the same id is a
no-op. -/
theorem duplicate_order_dedup (s : Vault.DataHandler) (orders : List Vault.DupOrder)
    (m : MessageId) :
    Vault.countGetsWithId m (Vault.runDuplicateOrders s orders).2 ≤ 1
    ∧ (∀ (address : Vault.IDataAddress) (holders : Finset XorName),
        m ∈ s.idata_duplicate_op →
          s.handle_duplicate_request address holders m = (s, none)) :=
  ⟨Vault.runDuplicateOrders_le_one m orders s,
    fun address holders h => Vault.handle_duplicate_request_of_mem s address holders m h⟩

/-- Witness for C2: three identical DuplicateOrders with id 42 emit at
most one Get, and a DuplicateOrder whose id is already in the set is a
no-op. -/
theorem duplicate_order_dedup_witness :
    Vault.countGetsWithId 42
        (Vault.runDuplicateOrders ⟨0, false, ∅⟩
          [⟨1, {2, 3}, 42⟩, ⟨1, {2, 3}, 42⟩, ⟨1, {2, 3}, 42⟩]).2 ≤ 1
    ∧ Vault.DataHandler.handle_duplicate_request ⟨0, false, {42}⟩ 1 {2, 3} 42
        = (⟨0, false, {42}⟩, none) :=
  ⟨(duplicate_order_dedup ⟨0, false, ∅⟩ [⟨1, {2, 3}, 42⟩, ⟨1, {2, 3}, 42⟩, ⟨1, {2, 3}, 42⟩] 42).1,
    (duplicate_order_dedup ⟨0, false, {42}⟩ [] 42).2 1 {2, 3} (by decide)⟩

/-- Claim C4 (evaluation): Node::handle maps ProcessLostMember to
Ok(vec![]) — no duplication actions are produced and the state is
unchanged, contradicting the specified duplication trigger. -/
theorem process_lost_member_yields_no_actions :
    NodeM.Node.handle
      ⟨some 1, some 2, some 3, some (NodeM.Chunks.new 4 5 6), ⟨4, 5⟩, 6⟩
      (.processLostMember 7 8)
    = (⟨some 1, some 2, some 3, some (NodeM.Chunks.new 4 5 6), ⟨4, 5⟩, 6⟩, []) := rfl

/-- Claim C5: an inbound IData Get is served from the local holder storage
iff the source is a section or the requester is a node; otherwise it goes
to the elder idata handler, and on an Adult (no elder handler) it yields
no action. -/
theorem idata_get_dispatch (s : Vault.DataHandler) (src : Vault.SrcLocation)
    (requester : Vault.PublicId) (address : Vault.IDataAddress) (mid : MessageId) :
    (s.handle_request src requester (.idata (.get address)) mid
        = some (.holderGetIData src address requester mid)
      ↔ (src.is_section = true ∨ requester.isNode = true))
    ∧ (src.is_section = false → requester.isNode = false → s.isElder = true →
        s.handle_request src requester (.idata (.get address)) mid
          = some (.elderGetIDataReq requester address mid))
    ∧ (src.is_section = false → requester.isNode = false → s.isElder = false →
        s.handle_request src requester (.idata (.get address)) mid = none) := by
  cases hsec : src.is_section <;> cases hnode : requester.isNode <;>
    cases helder : s.isElder <;>
    simp [Vault.DataHandler.handle_request, Vault.DataHandler.handle_idata_request,
      hsec, hnode, helder]

/-- Witness for C5: a section-sourced Get is served from the holder; a
node-sourced client Get goes to the elder handler when one is present and
yields nothing on an Adult. -/
theorem idata_get_dispatch_witness :
    (Vault.DataHandler.handle_request ⟨0, true, ∅⟩ (.sectionLoc 3) (.client 4)
        (.idata (.get 9)) 11
      = some (.holderGetIData (.sectionLoc 3) 9 (.client 4) 11))
    ∧ (Vault.DataHandler.handle_request ⟨0, true, ∅⟩ (.node 3) (.client 4)
        (.idata (.get 9)) 11
      = some (.elderGetIDataReq (.client 4) 9 11))
    ∧ (Vault.DataHandler.handle_request ⟨0, false, ∅⟩ (.node 3) (.client 4)
        (.idata (.get 9)) 11 = none) :=
  ⟨(idata_get_dispatch ⟨0, true, ∅⟩ (.sectionLoc 3) (.client 4) 9 11).1.mpr (Or.inl rfl),
    (idata_get_dispatch ⟨0, true, ∅⟩ (.node 3) (.client 4) 9 11).2.1 rfl rfl rfl,
    (idata_get_dispatch ⟨0, false, ∅⟩ (.node 3) (.client 4) 9 11).2.2 rfl rfl rfl⟩

/-- Claim C6: starting from an empty TransferStore, inserting events
e1..en succeeds and stores them under the dense stringified numeric keys
0..n-1; get_all returns exactly those events sorted by ascending numeric
key, i.e. in insertion order; and try_insert fails whenever the key at the
current count already exists. -/
theorem transfer_store_dense_keys (ε : Type) (es : List ε) :
    Transfers.insertAll (Transfers.TransferStore.empty ε) es
        = .ok (Transfers.storeOf es)
    ∧ (Transfers.storeOf es).db.map Prod.fst = (List.range es.length).map Nat.repr
    ∧ (Transfers.storeOf es).get_all = es
    ∧ ∀ (s : Transfers.TransferStore ε) (e : ε),
        s.existsKey (Nat.repr s.total_keys) = true →
          s.try_insert e = .error "Key exists" := by
  refine ⟨?_, ?_, Transfers.get_all_storeOf es, ?_⟩
  · have h := Transfers.insertAll_storeOf es []
    simpa [Transfers.TransferStore.empty, Transfers.storeOf, Transfers.dbOfFrom] using h
  · have h := Transfers.dbOfFrom_keys es 0
    rw [List.range_eq_range']
    exact h
  · intro s e h
    rw [Transfers.TransferStore.try_insert]
    simp [h]

/-- Witness for C6: three inserts from empty, get_all in insertion order,
and a failing try_insert on a store whose next key is already taken. -/
theorem transfer_store_dense_keys_witness :
    Transfers.insertAll (Transfers.TransferStore.empty Nat) [10, 20, 30]
        = .ok (Transfers.storeOf [10, 20, 30])
    ∧ (Transfers.storeOf [10, 20, 30]).get_all = [10, 20, 30]
    ∧ (Transfers.TransferStore.mk [("1", 5)]).try_insert 7 = .error "Key exists" :=
  ⟨(transfer_store_dense_keys Nat [10, 20, 30]).1,
    (transfer_store_dense_keys Nat [10, 20, 30]).2.2.1,
    (transfer_store_dense_keys Nat [10, 20, 30]).2.2.2 ⟨[("1", 5)]⟩ 7 (by decide)⟩

/-- Claim C7: LevelDown sets the metadata, transfers and section-funds
capabilities to none, installs a (fresh) immutable-chunk capability, and
returns no outbound duties. -/
theorem level_down_drops_elder_capabilities (s : NodeM.NodeState) :
    (NodeM.Node.handle s .levelDown).1.meta_data = none
    ∧ (NodeM.Node.handle s .levelDown).1.transfers = none
    ∧ (NodeM.Node.handle s .levelDown).1.section_funds = none
    ∧ (NodeM.Node.handle s .levelDown).1.chunks
        = some (NodeM.Chunks.new s.node_info.node_name s.node_info.root_dir s.used_space)
    ∧ (NodeM.Node.handle s .levelDown).2 = [] :=
  ⟨rfl, rfl, rfl, rfl, rfl⟩

/-- Counterexample to C8 as stated: processing a DuplicationComplete with
id 42 leaves 42 in the dedup set — the set is not pruned there. -/
theorem duplication_complete_retains_dedup_entry :
    (Vault.DataHandler.complete_duplication ⟨0, true, {42}⟩ (.sectionLoc 9)
        (.mutation (.ok ())) 42).1.idata_duplicate_op = {42}
    ∧ 42 ∈ (Vault.DataHandler.complete_duplication ⟨0, true, {42}⟩ (.sectionLoc 9)
        (.mutation (.ok ())) 42).1.idata_duplicate_op := by
  decide

/-- Claim C8 (amended): complete_duplication never modifies the dedup set;
the in-flight entry m is removed when the GetIData response with id m
carrying an Ok result is handled. -/
theorem dedup_pruned_on_get_response (s : Vault.DataHandler)
    (src sender : Vault.SrcLocation) (response : Vault.Response) (m : MessageId) :
    (s.complete_duplication sender response m).1 = s
    ∧ (∀ data : Vault.IData, m ∈ s.idata_duplicate_op →
        ((s.handle_response src (.getIData (.ok data)) m).1.idata_duplicate_op
            = s.idata_duplicate_op.erase m
          ∧ m ∉ (s.handle_response src (.getIData (.ok data)) m).1.idata_duplicate_op)) := by
  constructor
  · cases response <;> rfl
  · intro data h
    constructor
    · simp [Vault.DataHandler.handle_response, h]
    · simp [Vault.DataHandler.handle_response, h]

/-- Witness for C8 (amended): DuplicationComplete keeps id 42 in the set;
the Ok GetIData response removes it. -/
theorem dedup_pruned_on_get_response_witness :
    (Vault.DataHandler.complete_duplication ⟨0, true, {42}⟩ (.sectionLoc 9)
        (.mutation (.ok ())) 42).1 = ⟨0, true, {42}⟩
    ∧ ((Vault.DataHandler.handle_response ⟨0, true, {42}⟩ (.node 3)
          (.getIData (.ok 5)) 42).1.idata_duplicate_op
        = (Finset.erase {42} 42)
      ∧ 42 ∉ (Vault.DataHandler.handle_response ⟨0, true, {42}⟩ (.node 3)
          (.getIData (.ok 5)) 42).1.idata_duplicate_op) :=
  ⟨(dedup_pruned_on_get_response ⟨0, true, {42}⟩ (.node 3) (.sectionLoc 9)
      (.mutation (.ok ())) 42).1,
    (dedup_pruned_on_get_response ⟨0, true, {42}⟩ (.node 3) (.sectionLoc 9)
      (.mutation (.ok ())) 42).2 5 (by decide)⟩

/-- Counterexample to C10 as stated: after an error GetIData response for
in-flight id 7 (no action, 7 stays in the set), a subsequent Ok GetIData
response with id 7 does produce an action — "every subsequent ... response
with id m produces no action" fails. -/
theorem late_ok_response_still_acts :
    (Vault.DataHandler.handle_response ⟨0, false, {7}⟩ (.node 3)
        (.getIData (.error 1)) 7).2 = none
    ∧ 7 ∈ (Vault.DataHandler.handle_response ⟨0, false, {7}⟩ (.node 3)
        (.getIData (.error 1)) 7).1.idata_duplicate_op
    ∧ (Vault.DataHandler.handle_response
        (Vault.DataHandler.handle_response ⟨0, false, {7}⟩ (.node 3)
          (.getIData (.error 1)) 7).1
        (.node 4) (.getIData (.ok 5)) 7).2
      = some (.holderStoreIData (.node 4) 5 (.node 0) 7) := by
  decide

/-- Claim C10 (amended): an error GetIData response for an in-flight
duplication id m produces no action and does not remove m (removal
happens only on Ok), so subsequent DuplicateOrders with id m and further
error responses with id m are no-ops; a subsequent Ok response with id m
still removes m and stores the chunk. -/
theorem failed_duplication_not_retried (s : Vault.DataHandler)
    (src : Vault.SrcLocation) (e : Vault.NdError) (m : MessageId)
    (h : m ∈ s.idata_duplicate_op) :
    s.handle_response src (.getIData (.error e)) m = (s, none)
    ∧ (∀ (address : Vault.IDataAddress) (holders : Finset XorName),
        s.handle_duplicate_request address holders m = (s, none))
    ∧ (∀ (src2 : Vault.SrcLocation) (e2 : Vault.NdError),
        s.handle_response src2 (.getIData (.error e2)) m = (s, none))
    ∧ (∀ (src2 : Vault.SrcLocation) (data : Vault.IData),
        (s.handle_response src2 (.getIData (.ok data)) m).2
          = some (.holderStoreIData src2 data (.node s.id) m)) := by
  refine ⟨?_, fun address holders =>
      Vault.handle_duplicate_request_of_mem s address holders m h, ?_, ?_⟩
  · simp [Vault.DataHandler.handle_response, h]
  · intro src2 e2
    simp [Vault.DataHandler.handle_response, h]
  · intro src2 data
    simp [Vault.DataHandler.handle_response, h]

/-- Witness for C10 (amended) at a concrete in-flight state. -/
theorem failed_duplication_not_retried_witness :
    Vault.DataHandler.handle_response ⟨0, false, {7}⟩ (.node 3)
        (.getIData (.error 1)) 7 = (⟨0, false, {7}⟩, none)
    ∧ Vault.DataHandler.handle_duplicate_request ⟨0, false, {7}⟩ 1 {2, 3} 7
        = (⟨0, false, {7}⟩, none) :=
  ⟨(failed_duplication_not_retried ⟨0, false, {7}⟩ (.node 3) 1 7 (by decide)).1,
    (failed_duplication_not_retried ⟨0, false, {7}⟩ (.node 3) 1 7 (by decide)).2.1 1 {2, 3}⟩

/-- Claim C9: in the adult Data::handle_response, a node requester skips
section-signature validation entirely — the result is the same under any
two verification oracles (a valid and an arbitrarily invalid signature),
and a GetIData Ok result stores the duplication copy; only non-node
requesters have the proof's signature verified, and a failing verification
drops the response. -/
theorem node_requester_skips_signature_validation :
    (∀ (v1 v2 : Adult.PublicKey → Adult.Signature → Adult.Request → Bool)
        (d : Adult.Data) (src : Vault.SrcLocation) (response : Adult.Response)
        (nid : Vault.NodePublicId) (mid : MessageId) (request : Adult.Request)
        (signature : Adult.Signature),
        Adult.Data.handle_response v1 d src response (.node nid) mid
            (some (request, signature))
          = Adult.Data.handle_response v2 d src response (.node nid) mid
            (some (request, signature)))
    ∧ (∀ (v : Adult.PublicKey → Adult.Signature → Adult.Request → Bool)
        (d : Adult.Data) (src : Vault.SrcLocation) (nid : Vault.NodePublicId)
        (mid : MessageId) (request : Adult.Request) (signature : Adult.Signature)
        (data : Vault.IData),
        Adult.Data.handle_response v d src (.getIData (.ok data)) (.node nid) mid
            (some (request, signature))
          = some (.storeChunk src data (.node nid) mid (some signature) request))
    ∧ (∀ (v : Adult.PublicKey → Adult.Signature → Adult.Request → Bool)
        (d : Adult.Data) (src : Vault.SrcLocation) (response : Adult.Response)
        (requester : Vault.PublicId) (mid : MessageId) (request : Adult.Request)
        (signature : Adult.Signature),
        requester.isNode = false →
        Adult.Data.validate_section_signature v d request signature = none →
        Adult.Data.handle_response v d src response requester mid
            (some (request, signature))
          = none) := by
  refine ⟨?_, ?_, ?_⟩
  · intro v1 v2 d src response nid mid request signature
    cases response with
    | getIData result =>
      cases result <;> simp [Adult.Data.handle_response, Vault.PublicId.isNode]
    | otherResponse tag => simp [Adult.Data.handle_response, Vault.PublicId.isNode]
  · intro v d src nid mid request signature data
    simp [Adult.Data.handle_response, Vault.PublicId.isNode]
  · intro v d src response requester mid request signature hnode hval
    simp [Adult.Data.handle_response, hnode, hval]

/-- Witness for C9: a node requester gets the same store action under an
always-true and an always-false verifier; a client requester with a
failing verifier is dropped. -/
theorem node_requester_skips_signature_validation_witness :
    Adult.Data.handle_response (fun _ _ _ => true) ⟨some 2⟩ (.node 3)
        (.getIData (.ok 5)) (.node 1) 6 (some (8, 9))
      = Adult.Data.handle_response (fun _ _ _ => false) ⟨some 2⟩ (.node 3)
        (.getIData (.ok 5)) (.node 1) 6 (some (8, 9))
    ∧ Adult.Data.handle_response (fun _ _ _ => true) ⟨some 2⟩ (.node 3)
        (.getIData (.ok 5)) (.node 1) 6 (some (8, 9))
      = some (.storeChunk (.node 3) 5 (.node 1) 6 (some 9) 8)
    ∧ Adult.Data.handle_response (fun _ _ _ => false) ⟨some 2⟩ (.node 3)
        (.getIData (.ok 5)) (.client 1) 6 (some (8, 9)) = none :=
  ⟨(node_requester_skips_signature_validation).1 (fun _ _ _ => true) (fun _ _ _ => false)
      ⟨some 2⟩ (.node 3) (.getIData (.ok 5)) 1 6 8 9,
    (node_requester_skips_signature_validation).2.1 (fun _ _ _ => true)
      ⟨some 2⟩ (.node 3) 1 6 8 9 5,
    (node_requester_skips_signature_validation).2.2 (fun _ _ _ => false)
      ⟨some 2⟩ (.node 3) (.getIData (.ok 5)) (.client 1) 6 8 9 rfl rfl⟩

end SafeVault
